import Mathlib

/-!
Verification of the capture-filter-redact-aggregate pipeline of
`playwright-api-spy` against its natural-language specification.

The TypeScript sources are shallowly embedded:
* JavaScript values that can appear as request/response bodies are modelled
  by the inductive type `Json` (with an explicit `undefined` constructor for
  JavaScript's `undefined`); numbers are restricted to integers.
* `JSON.stringify` / `JSON.parse` are modelled by `jsonStringify` /
  `jsonParse` (a fuel-based recursive-descent parser).
* Regular-expression testing (`new RegExp(p).test(s)`) and URL path
  extraction are environmental and are passed as function parameters.
* Exceptions are modelled with `Except`; `Date.now()` / id generation are
  passed in as explicit arguments.
-/

namespace ApiSpy

/-- Model of a JavaScript value usable as a body: JSON values plus
JavaScript's `undefined`.  Numbers are restricted to integers. -/
inductive Json where
  | null
  | undefined
  | bool (b : Bool)
  | num (n : Int)
  | str (s : String)
  | arr (items : List Json)
  | obj (fields : List (String × Json))
  deriving Repr

/-- JavaScript truthiness on modelled values: `undefined`, `null`, `false`,
`0` and the empty string are falsy, everything else is truthy. -/
def truthy : Json → Bool
  | .null => false
  | .undefined => false
  | .bool b => b
  | .num n => n != 0
  | .str s => s != ""
  | .arr _ => true
  | .obj _ => true

/-- Is the value a string? (JavaScript `typeof v === 'string'`.) -/
def Json.isStr : Json → Bool
  | .str _ => true
  | _ => false

/-- List-of-characters version of JavaScript `String.prototype.startsWith`. -/
def charsStartWith : List Char → List Char → Bool
  | [], _ => true
  | _ :: _, [] => false
  | a :: as, b :: bs => a == b && charsStartWith as bs

/-- Does `sub` occur as a contiguous run inside `s` (as character lists)? -/
def charsContain (sub : List Char) : List Char → Bool
  | [] => charsStartWith sub []
  | c :: cs => charsStartWith sub (c :: cs) || charsContain sub cs

/-- Model of JavaScript `s.includes(sub)`: substring containment. -/
def jsIncludes (s sub : String) : Bool :=
  charsContain sub.toList s.toList

/-- Model of JavaScript `s.toLowerCase()` (character-wise lowering). -/
def jsToLower (s : String) : String :=
  String.mk (s.toList.map Char.toLower)

/-- Model of JavaScript `s.toUpperCase()` (character-wise raising). -/
def jsToUpper (s : String) : String :=
  String.mk (s.toList.map Char.toUpper)

end ApiSpy

namespace ApiSpy

/-! ## Embedding of `src/redact.ts` -/

/-- Redaction configuration (`RedactConfig` in `types.ts`); optional fields
model the `?:` TypeScript fields. -/
structure RedactConfig where
  headers : Option (List String) := none
  bodyFields : Option (List String) := none
  replacement : Option String := none

/-- `DEFAULT_REDACT` from `redact.ts`. -/
def DEFAULT_REDACT : RedactConfig :=
  { headers := some [], bodyFields := some [], replacement := some "[REDACTED]" }

/-- `matchesHeader` from `redact.ts`: the lower-cased header name equals the
lower-cased pattern for at least one configured pattern. -/
def matchesHeader (headerName : String) (patterns : List String) : Bool :=
  patterns.any (fun pattern => jsToLower headerName == jsToLower pattern)

/-- The `shouldRedact` test inside `redactFields`: the lower-cased key equals
or contains (substring) the lower-cased configured field name. -/
def shouldRedact (key : String) (fieldsToRedact : List String) : Bool :=
  fieldsToRedact.any
    (fun field => jsToLower key == jsToLower field ||
      jsIncludes (jsToLower key) (jsToLower field))

mutual

/-- `redactFields` from `redact.ts`: recursive redaction of body fields (the
`obj === null || obj === undefined` early return, the array map, the object
per-key match-and-replace, and the fall-through for other scalars). -/
def redactFields (obj : Json) (fieldsToRedact : List String) (replacement : String) : Json :=
  match obj with
  | .null => .null
  | .undefined => .undefined
  | .arr items => .arr (redactFieldsList items fieldsToRedact replacement)
  | .obj kvs => .obj (redactFieldsObj kvs fieldsToRedact replacement)
  | .bool b => .bool b
  | .num n => .num n
  | .str s => .str s

/-- Element-wise redaction of an array (`obj.map(item => redactFields …)`). -/
def redactFieldsList (items : List Json) (fieldsToRedact : List String) (replacement : String) : List Json :=
  match items with
  | [] => []
  | x :: xs => redactFields x fieldsToRedact replacement :: redactFieldsList xs fieldsToRedact replacement

/-- Per-key redaction of an object (`for (const [key, value] of Object.entries(obj))`). -/
def redactFieldsObj (kvs : List (String × Json)) (fieldsToRedact : List String) (replacement : String) : List (String × Json) :=
  match kvs with
  | [] => []
  | (key, value) :: rest =>
    (key,
      if shouldRedact key fieldsToRedact && value.isStr then
        .str replacement
      else
        redactFields value fieldsToRedact replacement)
      :: redactFieldsObj rest fieldsToRedact replacement

end

/-- `redactHeaders` from `redact.ts`: replace the value of every header whose
name matches, pass all other headers through.  The header map is modelled as
an association list preserving insertion order. -/
def redactHeaders (headers : List (String × String)) (headersToRedact : List String)
    (replacement : String) : List (String × String) :=
  match headers with
  | [] => []
  | (key, value) :: rest =>
    (key, if matchesHeader key headersToRedact then replacement else value)
      :: redactHeaders rest headersToRedact replacement

/-- Originating-test descriptor (`testInfo` in `types.ts`). -/
structure TestInfo where
  title : String
  file : String
  line : Option Nat := none

/-- `CapturedRequest` from `types.ts`.  The optional body is a `Json` value
with `Json.undefined` standing for an absent (`undefined`) body; `metadata` is
modelled by its only used field, the optional `context` string. -/
structure CapturedRequest where
  id : String
  method : String
  url : String
  path : String
  headers : List (String × String)
  body : Json := .undefined
  timestamp : Nat
  testInfo : Option TestInfo := none
  context : Option String := none

/-- `CapturedResponse` from `types.ts`. -/
structure CapturedResponse where
  status : Int
  statusText : String
  headers : List (String × String)
  body : Json := .undefined
  duration : Nat

/-- The error record stored in a `CapturedEntry`. -/
structure ErrorInfo where
  message : String
  stack : Option String := none

/-- `CapturedEntry` from `types.ts`. -/
structure CapturedEntry where
  request : CapturedRequest
  response : Option CapturedResponse := none
  error : Option ErrorInfo := none

/-- The resolved redaction configuration built at the top of
`redactRequest` / `redactResponse` (`config.x ?? DEFAULT_REDACT.x`). -/
def resolveRedact (config : RedactConfig) : List String × List String × String :=
  (config.headers.getD [], config.bodyFields.getD [], config.replacement.getD "[REDACTED]")

/-- `redactRequest` from `redact.ts`: spread the request, replacing the
header map with its redacted copy and the body (when truthy) with its
redacted copy; a falsy body becomes `undefined`. -/
def redactRequest (request : CapturedRequest) (config : RedactConfig) : CapturedRequest :=
  let rc := resolveRedact config
  { request with
    headers := redactHeaders request.headers rc.1 rc.2.2,
    body := if truthy request.body then redactFields request.body rc.2.1 rc.2.2 else .undefined }

/-- `redactResponse` from `redact.ts`. -/
def redactResponse (response : CapturedResponse) (config : RedactConfig) : CapturedResponse :=
  let rc := resolveRedact config
  { response with
    headers := redactHeaders response.headers rc.1 rc.2.2,
    body := if truthy response.body then redactFields response.body rc.2.1 rc.2.2 else .undefined }

end ApiSpy

namespace ApiSpy

/-! ## Model of `JSON.stringify` / `JSON.parse` -/

/-- The opening-brace character. -/
def lbrace : Char := Char.ofNat 123

/-- The closing-brace character. -/
def rbrace : Char := Char.ofNat 125

/-- Escaping of one character inside a JSON string literal. -/
def escapeJsonChar (c : Char) : List Char :=
  if c == '"' then ['\\', '"']
  else if c == '\\' then ['\\', '\\']
  else if c == '\n' then ['\\', 'n']
  else if c == '\t' then ['\\', 't']
  else if c == '\r' then ['\\', 'r']
  else [c]

/-- A JSON string literal: quote, escaped characters, quote. -/
def escapeJsonString (s : String) : String :=
  "\"" ++ String.mk (s.toList.map escapeJsonChar).flatten ++ "\""

mutual

/-- Model of `JSON.stringify` on body values.  A top-level `undefined` never
occurs at the call sites (`truncateBody` only serializes arrays/objects); an
`undefined` array element serializes as `null` and an `undefined` object
field is dropped, as in JavaScript. -/
def jsonStringify : Json → String
  | .null => "null"
  | .undefined => "null"
  | .bool b => if b then "true" else "false"
  | .num n => toString n
  | .str s => escapeJsonString s
  | .arr items => "[" ++ String.intercalate "," (stringifyItems items) ++ "]"
  | .obj kvs =>
    String.mk [lbrace] ++ String.intercalate "," (stringifyFields kvs) ++ String.mk [rbrace]

/-- Serialized forms of the elements of an array. -/
def stringifyItems : List Json → List String
  | [] => []
  | x :: xs => jsonStringify x :: stringifyItems xs

/-- Serialized `"key":value` members of an object, dropping `undefined`
values as `JSON.stringify` does. -/
def stringifyFields : List (String × Json) → List String
  | [] => []
  | (_, .undefined) :: rest => stringifyFields rest
  | (k, v) :: rest => (escapeJsonString k ++ ":" ++ jsonStringify v) :: stringifyFields rest

end

/-- JSON whitespace. -/
def isJsonWs (c : Char) : Bool :=
  c == ' ' || c == '\n' || c == '\t' || c == '\r'

/-- Skip leading JSON whitespace. -/
def skipWs : List Char → List Char
  | [] => []
  | c :: cs => if isJsonWs c then skipWs cs else c :: cs

/-- Parse the body of a JSON string literal (after the opening quote), up to
and consuming the closing quote.  `\uXXXX` escapes are outside the model. -/
def parseStringBody : List Char → Option (List Char × List Char)
  | [] => none
  | '"' :: rest => some ([], rest)
  | '\\' :: rest =>
    match rest with
    | [] => none
    | e :: rest2 =>
      let dec : Option Char :=
        if e == '"' then some '"'
        else if e == '\\' then some '\\'
        else if e == '/' then some '/'
        else if e == 'n' then some '\n'
        else if e == 't' then some '\t'
        else if e == 'r' then some '\r'
        else if e == 'b' then some (Char.ofNat 8)
        else if e == 'f' then some (Char.ofNat 12)
        else none
      match dec with
      | none => none
      | some c => (parseStringBody rest2).map (fun p => (c :: p.1, p.2))
  | c :: rest =>
    if c.toNat < 32 then none
    else (parseStringBody rest).map (fun p => (c :: p.1, p.2))

/-- Split off a run of leading decimal digits. -/
def takeDigits : List Char → List Char × List Char
  | [] => ([], [])
  | c :: cs =>
    if c.isDigit then
      let p := takeDigits cs
      (c :: p.1, p.2)
    else ([], c :: cs)

/-- Decimal value of a digit run. -/
def digitsToNat (ds : List Char) : Nat :=
  ds.foldl (fun a c => a * 10 + (c.toNat - 48)) 0

/-- Parse a natural number literal; fractions and exponents are outside the
integer-valued model and are rejected. -/
def parseNatLit (cs : List Char) : Option (Nat × List Char) :=
  let p := takeDigits cs
  if p.1.isEmpty then none
  else
    match p.2 with
    | c :: _ => if c == '.' || c == 'e' || c == 'E' then none else some (digitsToNat p.1, p.2)
    | [] => some (digitsToNat p.1, [])

/-- Parse a JSON number (integer-valued model). -/
def parseNumber : List Char → Option (Json × List Char)
  | '-' :: rest => (parseNatLit rest).map (fun p => (.num (-(p.1 : Int)), p.2))
  | cs => (parseNatLit cs).map (fun p => (.num (p.1 : Int), p.2))

mutual

/-- Fuel-based recursive-descent JSON value parser modelling `JSON.parse`'s
grammar; `none` models a thrown `SyntaxError`. -/
def parseValue : Nat → List Char → Option (Json × List Char)
  | 0, _ => none
  | Nat.succ fuel, input =>
    match skipWs input with
    | [] => none
    | c :: rest =>
      if c == '"' then
        (parseStringBody rest).map (fun p => (.str (String.mk p.1), p.2))
      else if c == lbrace then
        match skipWs rest with
        | [] => none
        | c2 :: rest2 =>
          if c2 == rbrace then some (.obj [], rest2)
          else (parseMembers fuel (c2 :: rest2)).map (fun p => (.obj p.1, p.2))
      else if c == '[' then
        match skipWs rest with
        | [] => none
        | c2 :: rest2 =>
          if c2 == ']' then some (.arr [], rest2)
          else (parseItems fuel (c2 :: rest2)).map (fun p => (.arr p.1, p.2))
      else if c == 't' then
        match rest with
        | 'r' :: 'u' :: 'e' :: r => some (.bool true, r)
        | _ => none
      else if c == 'f' then
        match rest with
        | 'a' :: 'l' :: 's' :: 'e' :: r => some (.bool false, r)
        | _ => none
      else if c == 'n' then
        match rest with
        | 'u' :: 'l' :: 'l' :: r => some (.null, r)
        | _ => none
      else if c == '-' || c.isDigit then
        parseNumber (c :: rest)
      else none

/-- Parse one or more `"key": value` members followed by a closing brace. -/
def parseMembers : Nat → List Char → Option (List (String × Json) × List Char)
  | 0, _ => none
  | Nat.succ fuel, input =>
    match skipWs input with
    | '"' :: rest =>
      match parseStringBody rest with
      | none => none
      | some (key, rest2) =>
        match skipWs rest2 with
        | ':' :: rest3 =>
          match parseValue fuel rest3 with
          | none => none
          | some (v, rest4) =>
            match skipWs rest4 with
            | [] => none
            | c :: rest5 =>
              if c == ',' then
                (parseMembers fuel rest5).map (fun p => ((String.mk key, v) :: p.1, p.2))
              else if c == rbrace then some ([(String.mk key, v)], rest5)
              else none
        | _ => none
    | _ => none

/-- Parse one or more array items followed by a closing bracket. -/
def parseItems : Nat → List Char → Option (List Json × List Char)
  | 0, _ => none
  | Nat.succ fuel, input =>
    match parseValue fuel input with
    | none => none
    | some (v, rest) =>
      match skipWs rest with
      | [] => none
      | c :: rest2 =>
        if c == ',' then (parseItems fuel rest2).map (fun p => (v :: p.1, p.2))
        else if c == ']' then some (v :: [], rest2)
        else none

end

/-- Model of `JSON.parse`: parse one value and require only trailing
whitespace; `none` models a thrown `SyntaxError`. -/
def jsonParse (s : String) : Option Json :=
  match parseValue (s.length + 8) s.toList with
  | some (j, rest) => if skipWs rest == [] then some j else none
  | none => none

end ApiSpy

namespace ApiSpy

/-! ## Embedding of `src/api-spy.ts` -/

/-- A thrown JavaScript `Error` (message plus optional stack). -/
structure JsError where
  message : String
  stack : Option String := none

/-- The `SyntaxError` thrown by `JSON.parse` on malformed input. -/
def jsonParseError : JsError :=
  { message := "SyntaxError: Unexpected token in JSON" }

/-- `parseBody` from `api-spy.ts`: JSON-decode string bodies when possible,
else keep the raw value.  (The `Buffer` branch is outside the value model.) -/
def parseBody (body : Json) : Json :=
  match body with
  | .str s => (jsonParse s).getD (.str s)
  | other => other

/-- The truncation marker appended to an over-long string body. -/
def truncationMarker (omitted : Nat) : String :=
  "... [truncated, " ++ toString omitted ++ " more chars]"

/-- `truncateBody` from `api-spy.ts`: over-long strings are hard-cut with a
marker; over-long arrays/objects are serialized, cut, suffixed with `"` and
`}` and re-parsed — a re-parse failure is the thrown `SyntaxError`. -/
def truncateBody (body : Json) (maxLength : Nat) : Except JsError Json :=
  match body with
  | .str s =>
    if s.length > maxLength then
      .ok (.str (s.take maxLength ++ truncationMarker (s.length - maxLength)))
    else .ok body
  | .arr items =>
    let str := jsonStringify (.arr items)
    if str.length > maxLength then
      match jsonParse (str.take maxLength ++ "\"" ++ String.mk [rbrace]) with
      | some j => .ok j
      | none => .error jsonParseError
    else .ok (.arr items)
  | .obj kvs =>
    let str := jsonStringify (.obj kvs)
    if str.length > maxLength then
      match jsonParse (str.take maxLength ++ "\"" ++ String.mk [rbrace]) with
      | some j => .ok j
      | none => .error jsonParseError
    else .ok (.obj kvs)
  | other => .ok other

/-- Filter configuration (`FilterConfig` in `types.ts`); `none` models an
absent (`undefined`) field. -/
structure FilterConfig where
  includePaths : Option (List String) := none
  excludePaths : Option (List String) := none
  methods : Option (List String) := none

/-- `matchesFilter` from `api-spy.ts`, with regular-expression testing
abstracted as the environmental function `retest pattern path`.  The three
checks run in source order with early-return `false`. -/
def matchesFilter (retest : String → String → Bool) (method : String) (path : String)
    (filter : FilterConfig) : Bool :=
  let methodReject :=
    match filter.methods with
    | some ms => ms.length > 0 && !(ms.contains method)
    | none => false
  if methodReject then false
  else
    let excludeReject :=
      match filter.excludePaths with
      | some pats => pats.length > 0 && pats.any (fun pattern => retest pattern path)
      | none => false
    if excludeReject then false
    else
      let includeReject :=
        match filter.includePaths with
        | some pats => pats.length > 0 && !(pats.any (fun pattern => retest pattern path))
        | none => false
      if includeReject then false
      else true

/-- The fields of the resolved configuration that the capture pipeline
reads (`maxBodyLength`, `filter`, `redact`); the remaining fields only
steer console/report rendering. -/
structure SpyConfig where
  maxBodyLength : Nat := 10000
  filter : FilterConfig := {}
  redact : RedactConfig := {}

/-- The mutable state of an `ApiSpyInstance`: the entry list, the paused
flag, the current context and test descriptor, and the resolved
configuration.  Hook-callback lists and the console formatter are
display-only collaborators and carry no captured state. -/
structure SpyState where
  entries : List CapturedEntry := []
  paused : Bool := false
  context : Option String := none
  testInfo : Option TestInfo := none
  config : SpyConfig := {}

/-- The `if (body) { body = truncateBody(body, max) }` step shared by
`captureRequest` and `captureResponse`: truncation is applied only to a
truthy body. -/
def truncateIfTruthy (body : Json) (maxLength : Nat) : Except JsError Json :=
  if truthy body then truncateBody body maxLength else .ok body

/-- `ApiSpyInstance.captureRequest`.  `retest` and `extract` model the
environmental regular-expression test and URL path extraction; `freshId`
and `now` model `generateId()` and `Date.now()`.  The returned pair is the
(unchanged) instance state and the captured request, `none` standing for
the `null` of a paused or filtered-out call; a `JsError` models the
exception escaping from the truncation re-parse (via `Except.map`, which
re-throws the error unchanged). -/
def captureRequest (retest : String → String → Bool) (extract : String → String)
    (st : SpyState) (method url : String) (headers : List (String × String))
    (data : Json) (freshId : String) (now : Nat) :
    Except JsError (SpyState × Option CapturedRequest) :=
  if st.paused then .ok (st, none)
  else
    let httpMethod := jsToUpper method
    let path := extract url
    if !matchesFilter retest httpMethod path st.config.filter then .ok (st, none)
    else
      let request : CapturedRequest :=
        { id := freshId, method := httpMethod, url := url, path := path,
          headers := headers,
          body := if truthy data then parseBody data else .undefined,
          timestamp := now,
          testInfo := st.testInfo,
          context :=
            match st.context with
            | some c => if c == "" then none else some c
            | none => none }
      (truncateIfTruthy request.body st.config.maxBodyLength).map
        (fun b => (st, some { request with body := b }))

/-- The raw response handed to `captureResponse` by the wrapper. -/
structure RawResponse where
  status : Int
  statusText : String
  headers : List (String × String)
  body : Json := .undefined

/-- `ApiSpyInstance.captureResponse`: decode and truncate the body, then
append one entry holding the request and the captured response.  Console
output and response hooks are display-only and carry no captured state; a
`JsError` models the exception escaping from the truncation re-parse. -/
def captureResponse (st : SpyState) (request : CapturedRequest) (response : RawResponse)
    (duration : Nat) : Except JsError SpyState :=
  let body0 := if truthy response.body then parseBody response.body else .undefined
  (truncateIfTruthy body0 st.config.maxBodyLength).map
    (fun b =>
      { st with entries := st.entries ++
          [{ request := request,
             response := some
               { status := response.status, statusText := response.statusText,
                 headers := response.headers, body := b, duration := duration } }] })

/-- `ApiSpyInstance.captureError`: append one entry holding the request and
an error record built from the thrown error's message and stack. -/
def captureError (st : SpyState) (request : CapturedRequest) (error : JsError) : SpyState :=
  { st with
    entries := st.entries ++
      [{ request := request, error := some { message := error.message, stack := error.stack } }] }

/-- The intercepted-call body from `wrapWithApiSpy` (`wrapper.ts`), picking
up after the request-capture step: `captured` is the request-capture
result, `underlying` the outcome of the original client call. On success
the response is captured (when a request was captured) and returned; on
failure the error is captured (when a request was captured) and re-thrown.
An exception thrown inside `captureResponse` lands in the same `catch`
block, so it too is handed to `captureError` and re-thrown. -/
def interceptedCall (st : SpyState) (captured : Option CapturedRequest)
    (underlying : Except JsError RawResponse) (duration : Nat) :
    SpyState × Except JsError RawResponse :=
  match underlying with
  | .ok response =>
    match captured with
    | none => (st, .ok response)
    | some req =>
      match captureResponse st req response duration with
      | .ok st2 => (st2, .ok response)
      | .error e => (captureError st req e, .error e)
  | .error e =>
    match captured with
    | none => (st, .error e)
    | some req => (captureError st req e, .error e)

end ApiSpy

namespace ApiSpy

/-! ## Embedding of `src/json-report.ts` -/

/-- `Math.round` on a non-negative rational: the nearest integer, halves
rounding up, as JavaScript does. -/
def jsRound (q : ℚ) : ℤ := ⌊q + 1 / 2⌋

/-- The `summary` block of a `JsonReport`. -/
structure ReportSummary where
  totalRequests : Nat
  successfulRequests : Nat
  failedRequests : Nat
  avgDuration : Int
  minDuration : Nat
  maxDuration : Nat
  deriving Repr, DecidableEq

/-- A `JsonReport` (`json-report.ts`); `generatedAt` is the environmental
timestamp string. -/
structure JsonReport where
  version : String
  generatedAt : String
  summary : ReportSummary
  entries : List CapturedEntry

/-- The failure test inside `JsonReportGenerator.generate`: an entry with an
error, or with a response whose status is at least 400. -/
def isFailedEntry (e : CapturedEntry) : Bool :=
  e.error.isSome ||
    (match e.response with
     | some r => decide (400 ≤ r.status)
     | none => false)

/-- The durations of all entries that have a response
(`entries.filter(e => e.response).map(e => e.response!.duration)`). -/
def entryDurations (entries : List CapturedEntry) : List Nat :=
  entries.filterMap (fun e => e.response.map (fun r => r.duration))

/-- `JsonReportGenerator.generate` from `json-report.ts`. -/
def generateReport (now : String) (entries : List CapturedEntry) : JsonReport :=
  let durations := entryDurations entries
  let failedCount := (entries.filter isFailedEntry).length
  { version := "1.0.0",
    generatedAt := now,
    summary :=
      { totalRequests := entries.length,
        successfulRequests := entries.length - failedCount,
        failedRequests := failedCount,
        avgDuration :=
          if durations.length > 0 then
            jsRound ((durations.sum : ℚ) / (durations.length : ℚ))
          else 0,
        minDuration :=
          match durations with
          | [] => 0
          | d :: ds => ds.foldl Nat.min d,
        maxDuration :=
          match durations with
          | [] => 0
          | d :: ds => ds.foldl Nat.max d },
    entries := entries }

/-! ## Embedding of `GlobalApiSpyStore` (`api-spy.ts`)

The durable channel is modelled as an `FsWorld`: the two files' contents
(`none` = absent) plus two fault-injection flags saying whether the next
read / write system call fails.  Configurations and entries are carried as
`Json` values, which the store serializes and re-parses exactly as the
source does with `JSON.stringify` / `JSON.parse`. -/

/-- The filesystem as the store sees it, with fault injection. -/
structure FsWorld where
  configFile : Option String := none
  entriesFile : Option String := none
  readFails : Bool := false
  writeFails : Bool := false

/-- A generic I/O failure raised by `fs` reads or writes. -/
def fsError : JsError := { message := "EACCES: permission denied" }

/-- `GlobalApiSpyStore.setConfig`: an unguarded `fs.writeFileSync` of the
serialized configuration — there is no `try`/`catch` around it, so a write
failure propagates to the caller. -/
def storeSetConfig (w : FsWorld) (config : Json) : Except JsError FsWorld :=
  if w.writeFails then .error fsError
  else .ok { w with configFile := some (jsonStringify config) }

/-- `GlobalApiSpyStore.config` (the getter): inside a `try`/`catch`, read
and parse the config file when it exists; any failure falls back to the
in-memory configuration `mem`. -/
def storeGetConfig (mem : Json) (w : FsWorld) : Json :=
  match w.configFile with
  | none => mem
  | some content =>
    if w.readFails then mem
    else
      match jsonParse content with
      | some j => j
      | none => mem

/-- The `try` block of `GlobalApiSpyStore.addEntries`: read the existing
collection (absent file = empty array), require it to be an array, append
the batch, and write everything back. -/
def storeAddEntriesBody (w : FsWorld) (entries : List Json) : Except JsError FsWorld := do
  let existing ←
    match w.entriesFile with
    | none => pure (Json.arr [])
    | some content =>
      if w.readFails then .error fsError
      else
        match jsonParse content with
        | some j => pure j
        | none => .error jsonParseError
  let combined ←
    match existing with
    | .arr items => pure (Json.arr (items ++ entries))
    | _ => .error { message := "TypeError: existingEntries.push is not a function" }
  if w.writeFails then .error fsError
  else pure { w with entriesFile := some (jsonStringify combined) }

/-- `GlobalApiSpyStore.addEntries`: the empty-batch early return, then the
`try` body with a `catch` that logs and leaves the world unchanged — the
operation itself never throws. -/
def storeAddEntries (w : FsWorld) (entries : List Json) : FsWorld :=
  if entries.length == 0 then w
  else
    match storeAddEntriesBody w entries with
    | .ok w2 => w2
    | .error _ => w

/-- `GlobalApiSpyStore.getAllEntries`: inside a `try`/`catch`, read and
parse the entries file; absence, a read failure or malformed content all
yield the empty collection. -/
def storeGetAllEntries (w : FsWorld) : Json :=
  match w.entriesFile with
  | none => .arr []
  | some content =>
    if w.readFails then .arr []
    else
      match jsonParse content with
      | some j => j
      | none => .arr []

end ApiSpy

namespace ApiSpy

/-! ## Helper lemmas -/

theorem all_not_eq_not_any {α : Type _} (l : List α) (f : α → Bool) :
    (l.all fun a => !f a) = !(l.any f) := by
  induction l with
  | nil => rfl
  | cons a l ih => simp [ih]

theorem decide_length_pos {α : Type _} (l : List α) :
    decide (l.length > 0) = !l.isEmpty := by
  cases l <;> simp

theorem redactFieldsList_eq_map (items : List Json) (F : List String) (repl : String) :
    redactFieldsList items F repl = items.map (fun item => redactFields item F repl) := by
  induction items with
  | nil => rfl
  | cons x xs ih => simp [redactFieldsList, ih]

theorem redactFieldsObj_eq_map (kvs : List (String × Json)) (F : List String) (repl : String) :
    redactFieldsObj kvs F repl =
      kvs.map (fun kv =>
        (kv.1, if shouldRedact kv.1 F && kv.2.isStr then .str repl else redactFields kv.2 F repl)) := by
  induction kvs with
  | nil => rfl
  | cons kv rest ih => obtain ⟨k, v⟩ := kv; simp [redactFieldsObj, ih]

theorem redactHeaders_eq_map (headers : List (String × String)) (pats : List String) (repl : String) :
    redactHeaders headers pats repl =
      headers.map (fun kv => (kv.1, if matchesHeader kv.1 pats then repl else kv.2)) := by
  induction headers with
  | nil => rfl
  | cons kv rest ih => obtain ⟨k, v⟩ := kv; simp [redactHeaders, ih]

/-! ## C1: the filter is the conjunction of the three rules -/

/-- The method allow-list rule as the spec states it: all methods pass when
the list is absent or empty, otherwise the method must be a member. -/
def methodRulePass (methods : Option (List String)) (method : String) : Bool :=
  match methods with
  | none => true
  | some ms => ms.isEmpty || ms.contains method

/-- The exclude-path rule as the spec states it: no configured exclude
pattern may match the path. -/
def excludeRulePass (retest : String → String → Bool) (excludePaths : Option (List String))
    (path : String) : Bool :=
  match excludePaths with
  | none => true
  | some pats => pats.all (fun pattern => !(retest pattern path))

/-- The include-path rule as the spec states it: an absent or empty list
passes unconditionally, otherwise some pattern must match the path. -/
def includeRulePass (retest : String → String → Bool) (includePaths : Option (List String))
    (path : String) : Bool :=
  match includePaths with
  | none => true
  | some pats => pats.isEmpty || pats.any (fun pattern => retest pattern path)

theorem methodReject_eq_not_pass (ms : Option (List String)) (method : String) :
    (match ms with
      | some l => decide (l.length > 0) && !(l.contains method)
      | none => false) = !(methodRulePass ms method) := by
  rcases ms with _ | (_ | ⟨a, l⟩) <;>
    simp [methodRulePass, decide_length_pos, Bool.not_or]

theorem excludeReject_eq_not_pass (retest : String → String → Bool)
    (exc : Option (List String)) (path : String) :
    (match exc with
      | some pats => decide (pats.length > 0) && pats.any (fun pattern => retest pattern path)
      | none => false) = !(excludeRulePass retest exc path) := by
  rcases exc with _ | (_ | ⟨a, l⟩) <;>
    simp [excludeRulePass, decide_length_pos, all_not_eq_not_any]

theorem includeReject_eq_not_pass (retest : String → String → Bool)
    (inc : Option (List String)) (path : String) :
    (match inc with
      | some pats => decide (pats.length > 0) && !(pats.any (fun pattern => retest pattern path))
      | none => false) = !(includeRulePass retest inc path) := by
  rcases inc with _ | (_ | ⟨a, l⟩) <;>
    simp [includeRulePass, decide_length_pos, Bool.not_or]

/-- C1: `captureRequest` retains a request iff the logical AND of the three
filter rules holds — the method allow-list rule, the exclude-pattern rule
and the include-pattern rule — and an exclude-pattern match rejects
regardless of the include patterns. -/
theorem c1_filter_conjunction :
    ∀ (retest : String → String → Bool) (method path : String) (filter : FilterConfig),
    (matchesFilter retest method path filter =
      (methodRulePass filter.methods method &&
        (excludeRulePass retest filter.excludePaths path &&
          includeRulePass retest filter.includePaths path))) ∧
    (excludeRulePass retest filter.excludePaths path = false →
      matchesFilter retest method path filter = false) := by
  intro retest method path filter
  obtain ⟨inc, exc, ms⟩ := filter
  have main : matchesFilter retest method path ⟨inc, exc, ms⟩ =
      (methodRulePass ms method &&
        (excludeRulePass retest exc path && includeRulePass retest inc path)) := by
    simp only [matchesFilter, methodReject_eq_not_pass, excludeReject_eq_not_pass,
      includeReject_eq_not_pass]
    cases methodRulePass ms method <;>
      cases excludeRulePass retest exc path <;>
      cases includeRulePass retest inc path <;> rfl
  refine ⟨main, fun hexc => ?_⟩
  rw [main, hexc]
  simp

end ApiSpy

namespace ApiSpy

/-! ## C2: body-field redaction, case by case -/

/-- C2: body-field redaction returns null/undefined and non-string scalars
unchanged, redacts arrays element-wise in order, and for each object key
replaces the value with the replacement text exactly when the lower-cased
key equals or contains a lower-cased configured field name and the value is
a string — a non-string value under a matching key is only recursed into,
never replaced wholesale. -/
theorem c2_redact_fields_cases :
    ∀ (F : List String) (repl : String),
    (redactFields .null F repl = .null) ∧
    (redactFields .undefined F repl = .undefined) ∧
    (∀ b : Bool, redactFields (.bool b) F repl = .bool b) ∧
    (∀ n : Int, redactFields (.num n) F repl = .num n) ∧
    (∀ items : List Json,
      redactFields (.arr items) F repl = .arr (items.map (fun item => redactFields item F repl))) ∧
    (∀ kvs : List (String × Json),
      redactFields (.obj kvs) F repl =
        .obj (kvs.map (fun kv =>
          (kv.1,
            if shouldRedact kv.1 F && kv.2.isStr then .str repl
            else redactFields kv.2 F repl)))) ∧
    (∀ (k : String) (v : Json), v.isStr = false →
      redactFields (.obj [(k, v)]) F repl = .obj [(k, redactFields v F repl)]) := by
  intro F repl
  refine ⟨rfl, rfl, fun b => rfl, fun n => rfl, fun items => ?_, fun kvs => ?_, fun k v hv => ?_⟩
  · simp [redactFields, redactFieldsList_eq_map]
  · simp [redactFields, redactFieldsObj_eq_map]
  · simp [redactFields, redactFieldsObj, hv]

/-- Witness for `c2_redact_fields_cases` at a concrete non-string value
under a matching key: the nested object named `password` is traversed, not
replaced. -/
theorem c2_redact_fields_cases_witness :
    (Json.obj [("inner", Json.str "x")]).isStr = false ∧
    redactFields (.obj [("password", .obj [("inner", .str "x")])]) ["password"] "[R]" =
      .obj [("password", redactFields (.obj [("inner", .str "x")]) ["password"] "[R]")] :=
  ⟨rfl, (c2_redact_fields_cases ["password"] "[R]").2.2.2.2.2.2 "password"
    (.obj [("inner", .str "x")]) rfl⟩

/-! ## C3: underlying-call failures are captured and re-thrown unmodified -/

/-- C3: when the underlying client method throws, the proxy hands the
original error to `captureError` when a request was captured (appending the
corresponding error entry), and in all cases re-throws exactly the original
error to the caller. -/
theorem c3_error_captured_and_rethrown :
    ∀ (st : SpyState) (req : CapturedRequest) (e : JsError) (duration : Nat),
    (interceptedCall st (some req) (.error e) duration = (captureError st req e, .error e)) ∧
    (interceptedCall st none (.error e) duration = (st, .error e)) ∧
    ((captureError st req e).entries =
      st.entries ++
        [{ request := req, response := none,
           error := some { message := e.message, stack := e.stack } }]) := by
  intro st req e duration
  exact ⟨rfl, rfl, rfl⟩

/-! ## C7: string-body truncation -/

/-- C7: a string body longer than the configured maximum is cut to exactly
the first `maxLength` characters plus a marker noting the number of omitted
characters; a body at or under the limit is returned unchanged. -/
theorem c7_truncate_string_body :
    ∀ (s : String) (maxLength : Nat),
    (truncateBody (.str s) maxLength =
      .ok (if s.length > maxLength
           then .str (s.take maxLength ++ truncationMarker (s.length - maxLength))
           else .str s)) ∧
    (s.length > maxLength → (s.take maxLength).length = maxLength) := by
  intro s maxLength
  constructor
  · by_cases h : s.length > maxLength <;> simp [truncateBody, h]
  · intro h
    rw [String.take_eq]
    show (s.data.take maxLength).length = maxLength
    rw [List.length_take]
    have hs : s.length = s.data.length := rfl
    omega

/-- Witness for `c7_truncate_string_body` on a concrete over-long body:
`"abcdef"` cut at 4 keeps `"abcd"` (length 4) and notes 2 omitted chars. -/
theorem c7_truncate_string_body_witness :
    ("abcdef" : String).length > 4 ∧
    truncateBody (.str "abcdef") 4 =
      .ok (.str ("abcd" ++ truncationMarker 2)) ∧
    (("abcdef" : String).take 4).length = 4 := by
  refine ⟨by decide, ?_, (c7_truncate_string_body "abcdef" 4).2 (by decide)⟩
  have h := (c7_truncate_string_body "abcdef" 4).1
  rw [h]
  rfl

end ApiSpy

namespace ApiSpy

/-! ## Concrete fixtures used by witnesses -/

/-- A spy state with default configuration and no captured entries. -/
def exState : SpyState := {}

/-- A concrete captured request. -/
def exRequest : CapturedRequest :=
  { id := "1", method := "GET", url := "http://h/a", path := "/a", headers := [], timestamp := 0 }

/-- A concrete successful raw response with no body. -/
def exResponse : RawResponse :=
  { status := 200, statusText := "OK", headers := [], body := .undefined }

/-- A concrete underlying-call error. -/
def exError : JsError := { message := "connect ECONNREFUSED", stack := some "at fetch" }

/-- Inversion for `Except.map` hitting `.ok`. -/
theorem except_map_eq_ok {ε α β : Type _} (f : α → β) (x : Except ε α) (y : β)
    (h : x.map f = .ok y) : ∃ a, x = .ok a ∧ y = f a := by
  cases x with
  | error e => simp [Except.map] at h
  | ok a =>
    refine ⟨a, rfl, ?_⟩
    simpa [Except.map] using h.symm

/-! ## C4: the entry list grows only when an outcome arrives -/

/-- C4: `captureRequest` never modifies the entry list, while every
completing `captureResponse` call and every `captureError` call appends
exactly one `CapturedEntry` — so an entry exists for a request iff a
response or error was captured for it. -/
theorem c4_entries_grow_only_on_outcome :
    ∀ (retest : String → String → Bool) (extract : String → String) (st : SpyState)
      (method url : String) (headers : List (String × String)) (data : Json)
      (freshId : String) (now : Nat) (request : CapturedRequest) (response : RawResponse)
      (duration : Nat) (error : JsError),
    (∀ st2 r, captureRequest retest extract st method url headers data freshId now = .ok (st2, r) →
      st2.entries = st.entries) ∧
    (∀ st3, captureResponse st request response duration = .ok st3 →
      ∃ cr, st3.entries =
        st.entries ++ [{ request := request, response := some cr, error := none }]) ∧
    ((captureError st request error).entries =
      st.entries ++ [{ request := request, response := none,
                       error := some { message := error.message, stack := error.stack } }]) := by
  intro retest extract st method url headers data freshId now request response duration error
  refine ⟨fun st2 r h => ?_, fun st3 h => ?_, rfl⟩
  · unfold captureRequest at h
    by_cases hp : st.paused = true
    · rw [if_pos hp] at h
      cases h; rfl
    · rw [if_neg hp] at h
      by_cases hm : (!matchesFilter retest (jsToUpper method) (extract url) st.config.filter) = true
      · rw [if_pos hm] at h
        cases h; rfl
      · rw [if_neg hm] at h
        obtain ⟨b, _, hy⟩ := except_map_eq_ok _ _ _ h
        exact congrArg (fun p => SpyState.entries p.1) hy
  · unfold captureResponse at h
    obtain ⟨b, _, hy⟩ := except_map_eq_ok _ _ _ h
    exact ⟨_, congrArg SpyState.entries hy⟩

/-- Witness for `c4_entries_grow_only_on_outcome` at concrete inputs: a
concrete `captureRequest` leaves the entry list unchanged, and a concrete
`captureResponse` appends exactly one entry. -/
theorem c4_entries_grow_only_on_outcome_witness :
    (∃ st2 r,
      captureRequest (fun _ _ => false) (fun u => u) exState "get" "http://h/a" [] .undefined "1" 0 =
        .ok (st2, r) ∧ st2.entries = exState.entries) ∧
    (∃ st3 cr, captureResponse exState exRequest exResponse 7 = .ok st3 ∧
      st3.entries = exState.entries ++ [{ request := exRequest, response := some cr, error := none }]) := by
  have h := c4_entries_grow_only_on_outcome (fun _ _ => false) (fun u => u) exState
    "get" "http://h/a" [] .undefined "1" 0 exRequest exResponse 7 exError
  constructor
  · exact ⟨_, _, rfl, h.1 _ _ rfl⟩
  · obtain ⟨cr, hcr⟩ := h.2.1 _ rfl
    exact ⟨_, cr, rfl, hcr⟩

/-! ## C10: falsy body payloads are recorded as absent -/

/-- C10: a falsy `options.data` is stored as an absent (`undefined`)
request body, a falsy raw response body is stored as an absent response
body, and the truncation step is skipped whenever the parsed body is falsy
(the parsed value is stored as-is). -/
theorem c10_falsy_bodies_absent :
    ∀ (retest : String → String → Bool) (extract : String → String) (st : SpyState)
      (method url : String) (headers : List (String × String)) (data : Json)
      (freshId : String) (now : Nat) (request : CapturedRequest) (response : RawResponse)
      (duration : Nat),
    (st.paused = false →
      matchesFilter retest (jsToUpper method) (extract url) st.config.filter = true →
      truthy data = false →
      captureRequest retest extract st method url headers data freshId now =
        .ok (st, some
          { id := freshId, method := (jsToUpper method), url := url, path := extract url,
            headers := headers, body := .undefined, timestamp := now, testInfo := st.testInfo,
            context := match st.context with
                       | some c => if c == "" then none else some c
                       | none => none })) ∧
    (truthy response.body = false →
      captureResponse st request response duration =
        .ok { st with entries := st.entries ++
          [{ request := request,
             response := some
               { status := response.status, statusText := response.statusText,
                 headers := response.headers, body := .undefined, duration := duration },
             error := none }] }) ∧
    (st.paused = false →
      matchesFilter retest (jsToUpper method) (extract url) st.config.filter = true →
      truthy data = true →
      truthy (parseBody data) = false →
      captureRequest retest extract st method url headers data freshId now =
        .ok (st, some
          { id := freshId, method := (jsToUpper method), url := url, path := extract url,
            headers := headers, body := parseBody data, timestamp := now, testInfo := st.testInfo,
            context := match st.context with
                       | some c => if c == "" then none else some c
                       | none => none })) := by
  intro retest extract st method url headers data freshId now request response duration
  refine ⟨fun hp hm hd => ?_, fun hb => ?_, fun hp hm hd hpb => ?_⟩
  · unfold captureRequest
    simp [hp, hm, hd, truncateIfTruthy, Except.map, show truthy .undefined = false from rfl]
  · unfold captureResponse
    simp [hb, truncateIfTruthy, Except.map, show truthy .undefined = false from rfl]
  · unfold captureRequest
    simp [hp, hm, hd, hpb, truncateIfTruthy, Except.map]

/-- Witness for `c10_falsy_bodies_absent` at concrete inputs: an
empty-string request payload and an empty-string response body are stored
as absent bodies, and the parsed body `0` (from the truthy string `"0"`) is
stored without truncation. -/
theorem c10_falsy_bodies_absent_witness :
    (∃ req, captureRequest (fun _ _ => false) (fun u => u) exState "get" "http://h/a" []
        (.str "") "1" 0 = .ok (exState, some req) ∧ req.body = .undefined) ∧
    (∃ st3, captureResponse exState exRequest { exResponse with body := .str "" } 7 = .ok st3) ∧
    (∃ req, captureRequest (fun _ _ => false) (fun u => u) exState "get" "http://h/a" []
        (.str "0") "1" 0 = .ok (exState, some req) ∧ req.body = parseBody (.str "0")) := by
  have h := c10_falsy_bodies_absent (fun _ _ => false) (fun u => u) exState "get" "http://h/a"
    [] (.str "") "1" 0 exRequest { exResponse with body := .str "" } 7
  have h0 := c10_falsy_bodies_absent (fun _ _ => false) (fun u => u) exState "get" "http://h/a"
    [] (.str "0") "1" 0 exRequest { exResponse with body := .str "" } 7
  refine ⟨⟨_, h.1 rfl rfl (by decide), rfl⟩, ⟨_, h.2.1 (by decide)⟩,
    ⟨_, h0.2.2 rfl rfl (by decide) (by decide), rfl⟩⟩

end ApiSpy

namespace ApiSpy

/-! ## C8: the truncate-then-re-parse step can throw out of `captureRequest` -/

/-- A structured body whose 11-character serialization, cut at 3 characters
and suffixed with `"` and the closing brace, is not valid JSON. -/
def c8Body : Json := .obj [("aa", .bool true)]

/-- A spy state configured with `maxBodyLength := 3`. -/
def c8State : SpyState := { config := { maxBodyLength := 3 } }

/-- C8: there is an object body whose JSON serialization exceeds the
configured maximum for which the re-parse of the cut serialization fails,
so the error branch of `truncateBody`'s object case is reachable and the
exception propagates out of `captureRequest` instead of yielding a
truncated body. -/
theorem c8_truncate_reparse_can_fail :
    (jsonStringify c8Body).length > 3 ∧
    jsonParse ((jsonStringify c8Body).take 3 ++ "\"" ++ String.mk [rbrace]) = none ∧
    truncateBody c8Body 3 = .error jsonParseError ∧
    captureRequest (fun _ _ => false) (fun u => u) c8State "post" "http://h/x" [] c8Body "id" 0 =
      .error jsonParseError := by
  exact ⟨by decide, rfl, rfl, rfl⟩

end ApiSpy

namespace ApiSpy

/-! ## C5: redaction is pure; what it may change

`DiffOnlyRedacted F repl a b` says `b` is structurally equal to `a` except
that some string leaves sitting under an object key matching a configured
field name have been replaced by the replacement text — the claim's
"structurally equal to the input except at redacted string leaves". -/

mutual

inductive DiffOnlyRedacted (F : List String) (repl : String) : Json → Json → Prop where
  | null : DiffOnlyRedacted F repl .null .null
  | undefined : DiffOnlyRedacted F repl .undefined .undefined
  | bool (b : Bool) : DiffOnlyRedacted F repl (.bool b) (.bool b)
  | num (n : Int) : DiffOnlyRedacted F repl (.num n) (.num n)
  | str (s : String) : DiffOnlyRedacted F repl (.str s) (.str s)
  | arr {xs ys : List Json} : DiffListRedacted F repl xs ys →
      DiffOnlyRedacted F repl (.arr xs) (.arr ys)
  | obj {kvs kvs' : List (String × Json)} : DiffObjRedacted F repl kvs kvs' →
      DiffOnlyRedacted F repl (.obj kvs) (.obj kvs')

inductive DiffListRedacted (F : List String) (repl : String) : List Json → List Json → Prop where
  | nil : DiffListRedacted F repl [] []
  | cons {x y : Json} {xs ys : List Json} : DiffOnlyRedacted F repl x y →
      DiffListRedacted F repl xs ys → DiffListRedacted F repl (x :: xs) (y :: ys)

inductive DiffObjRedacted (F : List String) (repl : String) :
    List (String × Json) → List (String × Json) → Prop where
  | nil : DiffObjRedacted F repl [] []
  | redacted {k : String} {v : Json} {rest rest' : List (String × Json)} :
      shouldRedact k F = true → v.isStr = true → DiffObjRedacted F repl rest rest' →
      DiffObjRedacted F repl ((k, v) :: rest) ((k, .str repl) :: rest')
  | kept {k : String} {v v' : Json} {rest rest' : List (String × Json)} :
      DiffOnlyRedacted F repl v v' → DiffObjRedacted F repl rest rest' →
      DiffObjRedacted F repl ((k, v) :: rest) ((k, v') :: rest')

end

theorem diffObjRedacted_cons (F : List String) (repl : String) (k : String) (v : Json)
    (rest rest' : List (String × Json))
    (hv : DiffOnlyRedacted F repl v (redactFields v F repl))
    (hrest : DiffObjRedacted F repl rest rest') :
    DiffObjRedacted F repl ((k, v) :: rest)
      ((k, if shouldRedact k F && v.isStr then .str repl else redactFields v F repl) :: rest') := by
  by_cases hc : (shouldRedact k F && v.isStr) = true
  · rw [if_pos hc]
    exact .redacted (Bool.and_eq_true .. ▸ hc).1 (Bool.and_eq_true .. ▸ hc).2 hrest
  · rw [if_neg hc]
    exact .kept hv hrest

mutual

theorem redactFields_diffOnly (F : List String) (repl : String) :
    ∀ b : Json, DiffOnlyRedacted F repl b (redactFields b F repl)
  | .null => .null
  | .undefined => .undefined
  | .bool b => .bool b
  | .num n => .num n
  | .str s => .str s
  | .arr items => .arr (redactFieldsList_diffOnly F repl items)
  | .obj kvs => .obj (redactFieldsObj_diffOnly F repl kvs)

theorem redactFieldsList_diffOnly (F : List String) (repl : String) :
    ∀ items : List Json, DiffListRedacted F repl items (redactFieldsList items F repl)
  | [] => .nil
  | x :: xs => .cons (redactFields_diffOnly F repl x) (redactFieldsList_diffOnly F repl xs)

theorem redactFieldsObj_diffOnly (F : List String) (repl : String) :
    ∀ kvs : List (String × Json), DiffObjRedacted F repl kvs (redactFieldsObj kvs F repl)
  | [] => .nil
  | (k, v) :: rest =>
    diffObjRedacted_cons F repl k v rest _ (redactFields_diffOnly F repl v)
      (redactFieldsObj_diffOnly F repl rest)

end

/-- A captured request carrying the falsy body `0` (reachable: a request
issued with the truthy payload string `"0"` is stored with parsed body `0`). -/
def c5Request : CapturedRequest :=
  { id := "1", method := "POST", url := "http://h/a", path := "/a", headers := [],
    body := .num 0, timestamp := 0 }

/-- Counterexample to C5 as stated: with an empty redaction configuration
(no headers, no body fields to redact) the redacted copy of a request whose
body is the falsy value `0` differs from the input — its body has become
`undefined` — although no redacted header value and no redacted string leaf
is involved. -/
theorem c5_counterexample :
    c5Request.body = .num 0 ∧
    (redactRequest c5Request {}).body = .undefined ∧
    redactRequest c5Request {} ≠ c5Request := by
  refine ⟨rfl, rfl, fun h => ?_⟩
  have hb : (redactRequest c5Request {}).body = c5Request.body := congrArg CapturedRequest.body h
  rw [show (redactRequest c5Request {}).body = .undefined from rfl] at hb
  exact Json.noConfusion hb

/-- C5 (amended): `redactRequest` / `redactResponse` are pure and return a
copy that is structurally equal to the input except at redacted header
values and redacted string leaves of the body — and additionally a falsy
body (`null`, `0`, `false` or the empty string) is replaced wholesale by
`undefined`.  All other record fields are preserved, header redaction
touches only values of matching names, and body redaction relates input
and output by `DiffOnlyRedacted`; the spec's round-trip example evaluates
as stated. -/
theorem c5_redaction_shape :
    (∀ (request : CapturedRequest) (config : RedactConfig),
      (redactRequest request config).id = request.id ∧
      (redactRequest request config).method = request.method ∧
      (redactRequest request config).url = request.url ∧
      (redactRequest request config).path = request.path ∧
      (redactRequest request config).timestamp = request.timestamp ∧
      (redactRequest request config).testInfo = request.testInfo ∧
      (redactRequest request config).context = request.context) ∧
    (∀ (response : CapturedResponse) (config : RedactConfig),
      (redactResponse response config).status = response.status ∧
      (redactResponse response config).statusText = response.statusText ∧
      (redactResponse response config).duration = response.duration) ∧
    (∀ (headers : List (String × String)) (pats : List String) (repl : String),
      redactHeaders headers pats repl =
        headers.map (fun kv => (kv.1, if matchesHeader kv.1 pats then repl else kv.2))) ∧
    (∀ (F : List String) (repl : String) (b : Json),
      DiffOnlyRedacted F repl b (redactFields b F repl)) ∧
    (∀ (request : CapturedRequest) (config : RedactConfig),
      (redactRequest request config).body =
        if truthy request.body then
          redactFields request.body ((resolveRedact config).2.1) ((resolveRedact config).2.2)
        else .undefined) ∧
    (redactFields
        (.obj [("a", .obj [("password", .str "x"), ("nested", .obj [("token", .str "y")])])])
        ["password", "token"] "[REDACTED]" =
      .obj [("a", .obj [("password", .str "[REDACTED]"),
                        ("nested", .obj [("token", .str "[REDACTED]")])])]) := by
  refine ⟨fun request config => ⟨rfl, rfl, rfl, rfl, rfl, rfl, rfl⟩,
    fun response config => ⟨rfl, rfl, rfl⟩,
    redactHeaders_eq_map,
    fun F repl b => redactFields_diffOnly F repl b,
    fun request config => rfl,
    ?_⟩
  rfl

end ApiSpy

namespace ApiSpy

/-! ## C6: the JSON report summary -/

theorem foldl_min_le_init (ds : List Nat) : ∀ d : Nat, ds.foldl Nat.min d ≤ d := by
  induction ds with
  | nil => intro d; exact le_rfl
  | cons e ds ih => intro d; exact (ih (Nat.min d e)).trans (Nat.min_le_left d e)

theorem foldl_min_mem (ds : List Nat) : ∀ d : Nat, ds.foldl Nat.min d ∈ d :: ds := by
  induction ds with
  | nil => intro d; exact List.mem_singleton.mpr rfl
  | cons e ds ih =>
    intro d
    rw [List.foldl_cons]
    have h := ih (Nat.min d e)
    rcases List.mem_cons.mp h with h1 | h1
    · rw [h1]
      rcases (show Nat.min d e = d ∨ Nat.min d e = e from by
        show (if d ≤ e then d else e) = d ∨ (if d ≤ e then d else e) = e
        split <;> simp) with hm | hm
      · rw [hm]; exact List.mem_cons_self _ _
      · rw [hm]; exact List.mem_cons_of_mem _ (List.mem_cons_self _ _)
    · exact List.mem_cons_of_mem _ (List.mem_cons_of_mem _ h1)

theorem foldl_min_le (ds : List Nat) : ∀ d x : Nat, x ∈ d :: ds → ds.foldl Nat.min d ≤ x := by
  induction ds with
  | nil =>
    intro d x hx
    rw [List.mem_singleton.mp hx]
    exact le_rfl
  | cons e ds ih =>
    intro d x hx
    rcases List.mem_cons.mp hx with h1 | h1
    · exact h1 ▸ (foldl_min_le_init ds (Nat.min d e)).trans (Nat.min_le_left d e)
    · rcases List.mem_cons.mp h1 with h2 | h2
      · exact h2 ▸ (foldl_min_le_init ds (Nat.min d e)).trans (Nat.min_le_right d e)
      · exact ih (Nat.min d e) x (List.mem_cons_of_mem _ h2)

theorem foldl_max_ge_init (ds : List Nat) : ∀ d : Nat, d ≤ ds.foldl Nat.max d := by
  induction ds with
  | nil => intro d; exact le_rfl
  | cons e ds ih => intro d; exact (Nat.le_max_left d e).trans (ih (Nat.max d e))

theorem foldl_max_mem (ds : List Nat) : ∀ d : Nat, ds.foldl Nat.max d ∈ d :: ds := by
  induction ds with
  | nil => intro d; exact List.mem_singleton.mpr rfl
  | cons e ds ih =>
    intro d
    rw [List.foldl_cons]
    have h := ih (Nat.max d e)
    rcases List.mem_cons.mp h with h1 | h1
    · rw [h1]
      rcases (show Nat.max d e = d ∨ Nat.max d e = e from by
        show (if d ≤ e then e else d) = d ∨ (if d ≤ e then e else d) = e
        split <;> simp) with hm | hm
      · rw [hm]; exact List.mem_cons_self _ _
      · rw [hm]; exact List.mem_cons_of_mem _ (List.mem_cons_self _ _)
    · exact List.mem_cons_of_mem _ (List.mem_cons_of_mem _ h1)

theorem foldl_max_ge (ds : List Nat) : ∀ d x : Nat, x ∈ d :: ds → x ≤ ds.foldl Nat.max d := by
  induction ds with
  | nil =>
    intro d x hx
    rw [List.mem_singleton.mp hx]
    exact le_rfl
  | cons e ds ih =>
    intro d x hx
    rcases List.mem_cons.mp hx with h1 | h1
    · exact h1 ▸ (Nat.le_max_left d e).trans (foldl_max_ge_init ds (Nat.max d e))
    · rcases List.mem_cons.mp h1 with h2 | h2
      · exact h2 ▸ (Nat.le_max_right d e).trans (foldl_max_ge_init ds (Nat.max d e))
      · exact ih (Nat.max d e) x (List.mem_cons_of_mem _ h2)

/-- `Math.round` of the exact mean of naturals is integer arithmetic:
`⌊s/n + 1/2⌋ = (2s + n) / (2n)` for positive `n`. -/
theorem jsRound_natCast_div (s n : Nat) (hn : 0 < n) :
    jsRound ((s : ℚ) / (n : ℚ)) = (((2 * s + n) / (2 * n) : Nat) : ℤ) := by
  have hn' : ((n : ℚ)) ≠ 0 := Nat.cast_ne_zero.mpr hn.ne'
  have key : (s : ℚ) / (n : ℚ) + 1 / 2 = ((2 * s + n : Nat) : ℚ) / ((2 * n : Nat) : ℚ) := by
    push_cast
    field_simp
    ring
  have hpos : (0 : ℚ) ≤ ((2 * s + n : Nat) : ℚ) / ((2 * n : Nat) : ℚ) := by positivity
  unfold jsRound
  rw [key, ← Int.natCast_floor_eq_floor hpos, Nat.floor_div_eq_div]

/-- The three entries of the spec's worked summary example: durations 100,
200 and 50, with one failed entry (status 500). -/
def c6Entries : List CapturedEntry :=
  [ { request := exRequest,
      response := some { status := 200, statusText := "OK", headers := [], duration := 100 } },
    { request := exRequest,
      response := some { status := 500, statusText := "ERR", headers := [], duration := 200 } },
    { request := exRequest,
      response := some { status := 200, statusText := "OK", headers := [], duration := 50 } } ]

/-- C6: the JSON report summary counts all entries, counts as failed the
entries with an error or a response status at least 400, sets successful to
the difference, and computes the average (mean rounded to nearest), minimum
and maximum over the durations of entries that have a response (0 when
there are none); the spec's worked example evaluates as stated. -/
theorem c6_summary_correct :
    ∀ (now : String) (entries : List CapturedEntry),
    ((generateReport now entries).summary.totalRequests = entries.length) ∧
    ((generateReport now entries).summary.failedRequests =
      (entries.filter (fun e => isFailedEntry e)).length) ∧
    ((generateReport now entries).summary.successfulRequests =
      entries.length - (entries.filter (fun e => isFailedEntry e)).length) ∧
    (entryDurations entries = [] →
      (generateReport now entries).summary.avgDuration = 0 ∧
      (generateReport now entries).summary.minDuration = 0 ∧
      (generateReport now entries).summary.maxDuration = 0) ∧
    (entryDurations entries ≠ [] →
      ((generateReport now entries).summary.avgDuration =
        (((2 * (entryDurations entries).sum + (entryDurations entries).length) /
          (2 * (entryDurations entries).length) : Nat) : ℤ)) ∧
      ((generateReport now entries).summary.minDuration ∈ entryDurations entries ∧
        ∀ d ∈ entryDurations entries, (generateReport now entries).summary.minDuration ≤ d) ∧
      ((generateReport now entries).summary.maxDuration ∈ entryDurations entries ∧
        ∀ d ∈ entryDurations entries, d ≤ (generateReport now entries).summary.maxDuration)) ∧
    ((generateReport now c6Entries).summary =
      { totalRequests := 3, successfulRequests := 2, failedRequests := 1,
        avgDuration := 117, minDuration := 50, maxDuration := 200 }) := by
  intro now entries
  refine ⟨rfl, rfl, rfl, fun hnil => ?_, fun hne => ?_, ?_⟩
  · unfold generateReport
    simp [hnil]
  · constructor
    · have hlen : (entryDurations entries).length > 0 := List.length_pos.mpr hne
      unfold generateReport
      simp only [hlen, if_pos]
      exact jsRound_natCast_div _ _ hlen
    · obtain ⟨d, ds, hds⟩ := List.exists_cons_of_ne_nil hne
      constructor
      · constructor
        · show (generateReport now entries).summary.minDuration ∈ entryDurations entries
          unfold generateReport
          simp only [hds]
          exact hds ▸ foldl_min_mem ds d
        · intro x hx
          unfold generateReport
          simp only [hds]
          exact foldl_min_le ds d x (hds ▸ hx)
      · constructor
        · show (generateReport now entries).summary.maxDuration ∈ entryDurations entries
          unfold generateReport
          simp only [hds]
          exact hds ▸ foldl_max_mem ds d
        · intro x hx
          unfold generateReport
          simp only [hds]
          exact foldl_max_ge ds d x (hds ▸ hx)
  · have hgen := jsRound_natCast_div (entryDurations c6Entries).sum
      (entryDurations c6Entries).length (by decide)
    have havg : (generateReport now c6Entries).summary.avgDuration = 117 := by
      calc (generateReport now c6Entries).summary.avgDuration
          = jsRound (((entryDurations c6Entries).sum : ℚ) /
              ((entryDurations c6Entries).length : ℚ)) := rfl
        _ = (((2 * (entryDurations c6Entries).sum + (entryDurations c6Entries).length) /
              (2 * (entryDurations c6Entries).length) : Nat) : ℤ) := hgen
        _ = 117 := by decide
    rw [show (117 : ℤ) = (generateReport now c6Entries).summary.avgDuration from havg.symm]
    rfl

/-- Witness for `c6_summary_correct`: the worked example's duration list is
non-empty and its average is 117 via the rounded-mean formula. -/
theorem c6_summary_correct_witness :
    entryDurations c6Entries ≠ [] ∧
    ((generateReport "t" c6Entries).summary.avgDuration =
      (((2 * (entryDurations c6Entries).sum + (entryDurations c6Entries).length) /
        (2 * (entryDurations c6Entries).length) : Nat) : ℤ)) := by
  refine ⟨by decide, ((c6_summary_correct "t" c6Entries).2.2.2.2.1 (by decide)).1⟩

end ApiSpy

namespace ApiSpy

/-! ## C9: aggregation-store failure handling -/

/-- A world whose next write system call fails. -/
def c9World : FsWorld := { writeFails := true }

/-- A world whose next read system call fails (with both files present). -/
def c9ReadFailWorld : FsWorld :=
  { configFile := some "x", entriesFile := some "x", readFails := true }

/-- Counterexample to C9 as stated: `setConfig` performs an unguarded
`fs.writeFileSync`, so a durable-store write failure there raises to the
caller instead of being reported without throwing. -/
theorem c9_counterexample :
    c9World.writeFails = true ∧
    storeSetConfig c9World (.obj []) = .error fsError := ⟨rfl, rfl⟩

/-- C9 (amended): reads never raise — `getConfig` falls back to the
in-memory configuration and `getAllEntries` to the empty collection on
absence, read failure or malformed content; `addEntries` catches any
read/write failure, leaving the durable state unchanged without throwing;
but `setConfig`'s write is unguarded: it raises exactly when the underlying
write fails. -/
theorem c9_store_failure_handling :
    ∀ (w : FsWorld) (mem : Json) (entries : List Json) (cfg : Json) (c : String),
    (w.readFails = true → storeGetConfig mem w = mem) ∧
    (w.configFile = none → storeGetConfig mem w = mem) ∧
    (w.configFile = some c → jsonParse c = none → storeGetConfig mem w = mem) ∧
    (w.readFails = true → storeGetAllEntries w = .arr []) ∧
    (w.entriesFile = none → storeGetAllEntries w = .arr []) ∧
    (w.entriesFile = some c → jsonParse c = none → storeGetAllEntries w = .arr []) ∧
    (∀ e, storeAddEntriesBody w entries = .error e → storeAddEntries w entries = w) ∧
    (storeSetConfig w cfg = if w.writeFails then .error fsError
      else .ok { w with configFile := some (jsonStringify cfg) }) := by
  intro w mem entries cfg c
  refine ⟨fun hr => ?_, fun hc => ?_, fun hc hp => ?_, fun hr => ?_, fun he => ?_,
    fun he hp => ?_, fun e he => ?_, rfl⟩
  · unfold storeGetConfig
    cases hc : w.configFile <;> simp [hr]
  · unfold storeGetConfig
    rw [hc]
  · unfold storeGetConfig
    rw [hc]
    cases hrf : w.readFails <;> simp [hp]
  · unfold storeGetAllEntries
    cases he : w.entriesFile <;> simp [hr]
  · unfold storeGetAllEntries
    rw [he]
  · unfold storeGetAllEntries
    rw [he]
    cases hrf : w.readFails <;> simp [hp]
  · unfold storeAddEntries
    by_cases h0 : (entries.length == 0) = true <;> simp [h0, he]

/-- Witness for `c9_store_failure_handling`: with a failing read, reads
fall back; with a failing write, `addEntries` swallows the failure while
`setConfig` raises. -/
theorem c9_store_failure_handling_witness :
    (storeGetConfig .null c9ReadFailWorld = .null) ∧
    (storeGetAllEntries c9ReadFailWorld = .arr []) ∧
    (storeAddEntries c9World [.null] = c9World) ∧
    (storeSetConfig c9World (.obj []) = if c9World.writeFails then .error fsError
      else .ok { c9World with configFile := some (jsonStringify (.obj [])) }) := by
  have h := c9_store_failure_handling c9ReadFailWorld .null [.null] (.obj []) "x"
  have h2 := c9_store_failure_handling c9World .null [.null] (.obj []) "x"
  exact ⟨h.1 rfl, h.2.2.2.1 rfl, h2.2.2.2.2.2.2.1 fsError rfl, h2.2.2.2.2.2.2.2⟩

end ApiSpy
